import Mathlib

/-!
Verification of the benchmarking pipeline in
`benchmarking_classical_quanutm.ipynb`.

The script benchmarks classical classifiers against quantum-kernel SVMs.
We embed its data model and control flow shallowly:

* real-valued metrics (accuracies, F1 scores, regularization constants)
  are modelled as rationals `ℚ`;
* matrices (feature matrices, kernel matrices) are `List (List ℚ)`;
* external library routines (sklearn estimators, the qiskit fidelity
  kernel, the scalers, the stratified splitters) are opaque function
  parameters — the spec itself excludes them as black boxes;
* the stateful best-C tracking loop becomes a `List.foldl`;
* the fallible final SVC fit (which receives `C=None` when no candidate
  was selected) returns `Except`.
-/

/-- A real matrix, as used for feature and kernel matrices. -/
abbrev Mat : Type := List (List ℚ)

/-- A train/test (or fit/validation) pair of index lists, as produced by
the sklearn splitters. -/
abbrev SplitIx : Type := List ℕ × List ℕ

/-- `np.mean` of a list of values. -/
def listMean (l : List ℚ) : ℚ := l.sum / l.length

/-- Mean squared deviation from the mean; `np.std` (with its default
`ddof=0`) is the square root of this quantity. -/
def listVar (l : List ℚ) : ℚ :=
  listMean (l.map (fun x => (x - listMean l) ^ 2))

/-- `sklearn.metrics.accuracy_score`: fraction of positions where
prediction equals the true label. -/
def accuracy_score (yTrue yPred : List Int) : ℚ :=
  (((yTrue.zip yPred).countP (fun p => p.1 == p.2) : ℕ) : ℚ) /
    ((yTrue.length : ℕ) : ℚ)

/-- `sklearn.metrics.f1_score` with its defaults (binary, positive label
`1`, `zero_division` returning `0`): `2·tp / (2·tp + fp + fn)`. -/
def f1_score (yTrue yPred : List Int) : ℚ :=
  let pairs := yTrue.zip yPred
  let tp := pairs.countP (fun p => p.1 == 1 && p.2 == 1)
  let fp := pairs.countP (fun p => !(p.1 == 1) && p.2 == 1)
  let fnc := pairs.countP (fun p => p.1 == 1 && !(p.2 == 1))
  if 2 * tp + fp + fnc = 0 then 0
  else ((2 * tp : ℕ) : ℚ) / ((2 * tp + fp + fnc : ℕ) : ℚ)

/-- Row selection `y[idx]` by an index list (numpy fancy indexing on a
vector of labels). -/
def selectIdx (y : List Int) (idx : List ℕ) : List Int :=
  idx.map (fun i => y.getD i 0)

/-- Row selection `X[idx]` by an index list (numpy fancy indexing on a
matrix). -/
def selectRows (X : Mat) (idx : List ℕ) : Mat :=
  idx.map (fun i => X.getD i [])

/-- `K[rows][:, cols]`: numpy sub-slicing of a matrix, first by row index
list, then by column index list. -/
def sliceMatrix (K : Mat) (rows cols : List ℕ) : Mat :=
  rows.map (fun i => cols.map (fun j => (K.getD i []).getD j 0))

/-- Elementwise scalar multiplication `X * c` (the per-feature-map data
scale factor applied to rotation angles). -/
def scaleMat (c : ℚ) (X : Mat) : Mat :=
  X.map (fun row => row.map (fun x => c * x))

/- ------------------- best-C selection loop (eval_qsvm) ------------------- -/

/-- One iteration of the `for C in [0.1,1,10]` loop body of `eval_qsvm`:
the state `(bestC, maxAcc)` is updated only when the candidate's mean
fold accuracy is strictly greater than `maxAcc`. -/
def selectStep (st : Option ℚ × ℚ) (cm : ℚ × ℚ) : Option ℚ × ℚ :=
  if st.2 < cm.2 then (some cm.1, cm.2) else st

/-- The whole `bestC, maxAcc = None, 0; for C in ...` loop of `eval_qsvm`,
run over a list of `(candidate C, mean fold accuracy)` pairs. -/
def selectBestC (cands : List (ℚ × ℚ)) : Option ℚ × ℚ :=
  cands.foldl selectStep (none, 0)

/-- The candidate grid `[0.1, 1, 10]` of `eval_qsvm`'s inner loop. -/
def Cgrid : List ℚ := [1/10, 1, 10]

/-- The black-box `SVC(kernel='precomputed', C=C).fit(Kfit, yfit)`
followed by `.predict(Kval)`: an opaque oracle taking the regularization
constant, the fit kernel block, the fit labels and the validation kernel
block, and returning predicted labels. -/
abbrev SvcOracle : Type := ℚ → Mat → List Int → Mat → List Int

/-- The mean 10-fold validation accuracy of one candidate `C` in
`eval_qsvm`: for each fold `(tri, vali)`, fit on `Ktr[tri][:,tri]` with
labels `ytr[tri]`, predict on `Ktr[vali][:,tri]`, score against
`ytr[vali]`, then average over folds (`np.mean(acc_fold)`). -/
def candMeanAcc (svc : SvcOracle) (Ktr : Mat) (ytr : List Int)
    (folds : List SplitIx) (C : ℚ) : ℚ :=
  listMean (folds.map (fun f =>
    accuracy_score (selectIdx ytr f.2)
      (svc C (sliceMatrix Ktr f.1 f.1) (selectIdx ytr f.1)
        (sliceMatrix Ktr f.2 f.1))))

/-- The `(C, mean accuracy)` pairs evaluated by the loop, in loop order. -/
def qsvmCandList (svc : SvcOracle) (Ktr : Mat) (ytr : List Int)
    (folds : List SplitIx) : List (ℚ × ℚ) :=
  Cgrid.map (fun C => (C, candMeanAcc svc Ktr ytr folds C))

/-- The full nested model selection of one split of `eval_qsvm`:
`(bestC, maxAcc)` after the candidate loop. -/
def splitSelectC (svc : SvcOracle) (Ktr : Mat) (ytr : List Int)
    (folds : List SplitIx) : Option ℚ × ℚ :=
  selectBestC (qsvmCandList svc Ktr ytr folds)

/- ------------------- feature-map catalog (build_maps) ------------------- -/

/-- A circuit instruction: either the opaque ZFeatureMap encoding block
(identified by its feature dimension and repetition count) or a CX gate
with explicit control and target qubits. -/
inductive QGate where
  | zfLayer (dim reps : ℕ)
  | cx (control target : ℕ)
deriving DecidableEq, Repr

/-- A quantum circuit: its qubit count and its ordered gate list. -/
structure QCircuit where
  num_qubits : ℕ
  gates : List QGate
deriving DecidableEq, Repr

/-- `qiskit.circuit.library.ZFeatureMap(dim, reps=reps)`: the base
encoding circuit, kept opaque as a single `zfLayer` block on `dim`
qubits. -/
def ZFeatureMap (dim reps : ℕ) : QCircuit :=
  { num_qubits := dim, gates := [QGate.zfLayer dim reps] }

/-- `FEATURE_DIM = 4`. -/
def FEATURE_DIM : ℕ := 4

/-- `add_linear_entanglement`: `for i in range(circ.num_qubits-1):
circ.cx(i, i+1)`, appended in order after the existing gates, then the
circuit is returned. -/
def add_linear_entanglement (circ : QCircuit) : QCircuit :=
  { circ with
    gates := circ.gates ++
      (List.range (circ.num_qubits - 1)).map (fun i => QGate.cx i (i + 1)) }

/-- `build_maps`: the five named `(feature map, data scale)` entries, in
insertion order of the Python dict. -/
def build_maps : List (String × QCircuit × ℚ) :=
  [("ZF-reps1", ZFeatureMap FEATURE_DIM 1, 1),
   ("ZF-reps2", ZFeatureMap FEATURE_DIM 2, 1),
   ("ZF-alpha05", ZFeatureMap FEATURE_DIM 1, 1/2),
   ("ZF-LinEnt", add_linear_entanglement (ZFeatureMap FEATURE_DIM 1), 1),
   ("ZF-alpha05-LinEnt", add_linear_entanglement (ZFeatureMap FEATURE_DIM 1), 1/2)]

/- ------------------------ quantum evaluator (eval_qsvm) ------------------ -/

/-- One invocation of the black-box kernel routine
`FidelityQuantumKernel(...).evaluate`: it both returns the kernel matrix
`fk A B` and appends the argument pair to an explicit call log, so that
the number and shape of kernel evaluations is part of the model. -/
def kernelCall (fk : Mat → Mat → Mat) (A B : Mat)
    (log : List (Mat × Mat)) : Mat × List (Mat × Mat) :=
  (fk A B, log ++ [(A, B)])

/-- The body of one outer split of `eval_qsvm` for one feature map, with
the kernel-evaluation log threaded through explicitly. Steps: scale the
selected train/test rows by the entry's data scale, evaluate
`Ktr = qk.evaluate(Xtr)` and `Kts = qk.evaluate(Xts, Xtr)`, run the
nested C selection on `Ktr`, and either fail (the selected C is `None`)
or fit-and-score the final `SVC(kernel='precomputed', C=bestC)`. -/
def qsvmSplitLog (fk : Mat → Mat → Mat) (svc : SvcOracle)
    (foldsOf : Mat → List Int → List SplitIx) (dscale : ℚ)
    (Xs : Mat) (y : List Int) (sp : SplitIx)
    (log0 : List (Mat × Mat)) : Except String (ℚ × ℚ) × List (Mat × Mat) :=
  let Xtr := scaleMat dscale (selectRows Xs sp.1)
  let Xts := scaleMat dscale (selectRows Xs sp.2)
  let ytr := selectIdx y sp.1
  let yts := selectIdx y sp.2
  let r1 := kernelCall fk Xtr Xtr log0
  let Ktr := r1.1
  let r2 := kernelCall fk Xts Xtr r1.2
  let Kts := r2.1
  let res : Except String (ℚ × ℚ) :=
    match (splitSelectC svc Ktr ytr (foldsOf Ktr ytr)).1 with
    | none => Except.error "SVC(kernel=precomputed, C=None): invalid C"
    | some c =>
        Except.ok (accuracy_score yts (svc c Ktr ytr Kts),
                   f1_score yts (svc c Ktr ytr Kts))
  (res, r2.2)

/-- One outer split of `eval_qsvm`, result only (empty initial log). -/
def qsvmSplit (fk : Mat → Mat → Mat) (svc : SvcOracle)
    (foldsOf : Mat → List Int → List SplitIx) (dscale : ℚ)
    (Xs : Mat) (y : List Int) (sp : SplitIx) : Except String (ℚ × ℚ) :=
  (qsvmSplitLog fk svc foldsOf dscale Xs y sp []).1

/-- Run a fallible computation over a list, stopping at the first
failure (any kernel or fit failure aborts the whole evaluation). -/
def collectE {α β : Type} (f : α → Except String β) :
    List α → Except String (List β)
  | [] => Except.ok []
  | a :: l =>
    match f a with
    | Except.error e => Except.error e
    | Except.ok b =>
      match collectE f l with
      | Except.error e => Except.error e
      | Except.ok bs => Except.ok (b :: bs)

/-- One summary row of the quantum results table `df_q`. `acc_var` is
the mean squared deviation; `np.std` is its square root (see
`QRow.acc_std`). -/
structure QRow where
  map : String
  acc_mean : ℚ
  acc_var : ℚ
  f1_mean : ℚ
deriving DecidableEq, Repr

/-- `np.std(accs)` for the row: the square root of the mean squared
deviation of the per-split accuracies. -/
noncomputable def QRow.acc_std (r : QRow) : ℝ :=
  Real.sqrt (r.acc_var : ℝ)

/-- The per-feature-map loop body of `eval_qsvm`: run every outer split,
collect `(accuracy, F1)` pairs, and aggregate them into one summary row
(`np.mean(accs)`, `np.std(accs)` via `acc_var`, `np.mean(f1s)`). -/
def qsvmMapRow (qk : QCircuit → Mat → Mat → Mat) (svc : SvcOracle)
    (foldsOf : Mat → List Int → List SplitIx) (Xs : Mat) (y : List Int)
    (splits : List SplitIx) (entry : String × QCircuit × ℚ) :
    Except String QRow :=
  match collectE (qsvmSplit (qk entry.2.1) svc foldsOf entry.2.2 Xs y) splits with
  | Except.error e => Except.error e
  | Except.ok res =>
      Except.ok
        { map := entry.1,
          acc_mean := listMean (res.map Prod.fst),
          acc_var := listVar (res.map Prod.fst),
          f1_mean := listMean (res.map Prod.snd) }

/-- `eval_qsvm`: min-max scale the features once (the scaler is the
opaque `mmScale`), then produce one summary row per `build_maps` entry,
using for every entry the same list of outer stratified splits (the
splitter is seeded with the fixed `SEED`, so each call to
`sss.split(Xs, y)` yields the same splits). -/
def eval_qsvm (qk : QCircuit → Mat → Mat → Mat) (svc : SvcOracle)
    (foldsOf : Mat → List Int → List SplitIx) (mmScale : Mat → Mat)
    (X : Mat) (y : List Int) (splits : List SplitIx) :
    Except String (List QRow) :=
  collectE (qsvmMapRow qk svc foldsOf (mmScale X) y splits) build_maps

/- --------------------- classical evaluator (eval_classical) -------------- -/

/-- `np.logspace(-3, 1, 5)`: the five gamma candidates `10^-3 .. 10^1`. -/
def gammas : List ℚ := [1/1000, 1/100, 1/10, 1, 10]

/-- `classical_grids`: the four model families with their hyperparameter
grids, in insertion order of the Python dict. -/
def classical_grids : List (String × List (String × List ℚ)) :=
  [("LogReg", [("C", [1/10, 1, 10])]),
   ("SVM-linear", [("C", [1/10, 1, 10])]),
   ("SVM-poly", [("degree", [3, 4, 5]), ("C", [1/10, 1, 10]), ("coef0", [0, 1])]),
   ("SVM-rbf", [("C", [1/10, 1, 10]), ("gamma", gammas)])]

/-- One row of the classical results table `df_c`. -/
structure CRow where
  split : ℕ
  model : String
  acc : ℚ
  f1 : ℚ
  time : ℚ
deriving DecidableEq, Repr

/-- The black-box `GridSearchCV(clf, grid, cv=3, scoring='accuracy')
.fit(Xtr, ytr)` followed by `best_estimator_.predict(Xts)`: an opaque
oracle from model name, training rows, training labels and test rows to
predicted test labels. -/
abbrev GsOracle : Type := String → Mat → List Int → Mat → List Int

/-- `eval_classical`: standardize the features once (the scaler is the
opaque `stdScale`), then for each stratified shuffle split (numbered
from 1, as `enumerate(..., 1)`) and each model family of
`classical_grids`, grid-search-fit on the training partition, predict
the test partition and record accuracy, F1 and the elapsed fit time
(the timing oracle `fitTime`). -/
def eval_classical (gsPredict : GsOracle) (fitTime : ℕ → String → ℚ)
    (stdScale : Mat → Mat) (X : Mat) (y : List Int)
    (splits : List SplitIx) : List CRow :=
  let Xs := stdScale X
  (splits.enum).flatMap (fun p =>
    classical_grids.map (fun mg =>
      { split := p.1 + 1,
        model := mg.1,
        acc := accuracy_score (selectIdx y p.2.2)
          (gsPredict mg.1 (selectRows Xs p.2.1) (selectIdx y p.2.1)
            (selectRows Xs p.2.2)),
        f1 := f1_score (selectIdx y p.2.2)
          (gsPredict mg.1 (selectRows Xs p.2.1) (selectIdx y p.2.1)
            (selectRows Xs p.2.2)),
        time := fitTime p.1 mg.1 }))

/- ------------------------- report aggregator (main) ---------------------- -/

/-- The rows stored in one spreadsheet sheet. -/
inductive SheetData where
  | classical (rows : List CRow)
  | quantum (rows : List QRow)
deriving DecidableEq

/-- The spreadsheet artifact produced by the `pd.ExcelWriter` block. -/
structure Workbook where
  path : String
  sheets : List (String × SheetData)
deriving DecidableEq

/-- The `with pd.ExcelWriter('Resultados_IrisLineal_QBoost.xlsx') as w:`
block: both tables are written as separate sheets of one file, in this
order, with these sheet names. -/
def writeResults (df_c : List CRow) (df_q : List QRow) : Workbook :=
  { path := "Resultados_IrisLineal_QBoost.xlsx",
    sheets := [("Clasicos", SheetData.classical df_c),
               ("Cuanticos", SheetData.quantum df_q)] }

/-- The descending-mean-accuracy order used by
`df_q.sort_values('acc_mean', ascending=False)`: row `a` comes before
row `b` when `a.acc_mean ≥ b.acc_mean`. -/
def accDesc (a b : QRow) : Prop := b.acc_mean ≤ a.acc_mean

instance : DecidableRel accDesc := fun a b => by
  unfold accDesc; infer_instance

instance : IsTotal QRow accDesc :=
  ⟨fun a b => le_total b.acc_mean a.acc_mean⟩

instance : IsTrans QRow accDesc :=
  ⟨fun _ _ _ h1 h2 => le_trans h2 h1⟩

/-- `df_q.sort_values('acc_mean', ascending=False)`: the quantum rows
sorted by descending mean accuracy (a non-mutating operation — `df_q`
itself is left unchanged). -/
def sortQuantumDesc (rows : List QRow) : List QRow :=
  List.insertionSort accDesc rows

/-- The report step of the `__main__` block, given the two result
tables: the console shows the quantum table sorted by descending mean
accuracy, while the workbook is written once from the tables themselves. -/
def mainReport (df_c : List CRow) (df_q : List QRow) :
    List QRow × Workbook :=
  (sortQuantumDesc df_q, writeResults df_c df_q)

/-- The rows of the sheet named `Cuanticos` of a workbook, if any. -/
def quantumSheetRows (wb : Workbook) : Option (List QRow) :=
  match (wb.sheets.find? (fun s => s.1 == "Cuanticos")) with
  | some (_, SheetData.quantum rows) => some rows
  | _ => none

/- ------------------- module names and the entry-point block -------------- -/

/-- Every name bound at module level by the script: the imported names
(lines 1–13) followed by the module-level assignments and `def`s. -/
def moduleDefinedNames : List String :=
  ["warnings", "time", "np", "pd", "sns", "plt",
   "datasets", "StandardScaler", "MinMaxScaler",
   "accuracy_score", "f1_score",
   "StratifiedShuffleSplit", "GridSearchCV", "StratifiedKFold",
   "LogisticRegression", "SVC",
   "QuantumCircuit", "ZFeatureMap", "StatevectorSampler",
   "ComputeUncompute", "FidelityQuantumKernel",
   "SEED", "sampler", "fidelity",
   "load_dataset", "classical_grids", "eval_classical",
   "FEATURE_DIM", "add_linear_entanglement", "build_maps", "eval_qsvm"]

/-- Python builtins visible to the script's statements. -/
def builtinNames : List String := ["print", "range", "enumerate", "open"]

/-- The free (module/builtin-scope) names referenced by the body of
`load_dataset`, in order of first use. -/
def loadDatasetUses : List String :=
  ["ad_hoc_data", "TRAIN_SIZE", "TEST_SIZE", "FEATURE_DIM"]

/-- A statement of the `__main__` block, abstracted to the global names
it looks up (in evaluation order: the callable before its arguments) and
the name it binds on success, if any. -/
inductive PyStmt where
  | expr (uses : List String)
  | assign (target : String) (uses : List String)
deriving DecidableEq, Repr

/-- The statements of the `if __name__ == '__main__':` block, in order.
The second statement is `df_c=eval_classical(X_raw,y_raw)`: CPython
resolves `eval_classical` first, then the arguments, before calling. -/
def mainStmts : List PyStmt :=
  [PyStmt.expr ["print"],
   PyStmt.assign "df_c" ["eval_classical", "X_raw", "y_raw"],
   PyStmt.expr ["print", "df_c"],
   PyStmt.expr ["print"],
   PyStmt.assign "df_q" ["eval_qsvm", "X_raw", "y_raw"],
   PyStmt.expr ["print", "df_q"],
   PyStmt.expr ["pd", "df_c", "df_q"],
   PyStmt.expr ["print"]]

/-- The global names whose lookup triggers an evaluator run. -/
def evaluatorNames : List String := ["eval_classical", "eval_qsvm", "load_dataset"]

/-- Outcome of running the entry-point block: either it finishes, or a
name lookup fails with a `NameError`; in both cases the evaluator calls
completed so far are recorded in order. -/
inductive RunOutcome where
  | finished (calls : List String)
  | nameError (missing : String) (calls : List String)
deriving DecidableEq, Repr

/-- The first name of `uses` not bound in `env`, if any. -/
def firstMissing (env uses : List String) : Option String :=
  uses.find? (fun n => !(env.contains n))

/-- Run the statements in order: a statement whose names all resolve
executes (recording any evaluator among its names as called, and binding
its target); the first failed lookup raises `NameError` and halts before
the statement's call happens. -/
def runStmts (env : List String) (calls : List String) :
    List PyStmt → RunOutcome
  | [] => RunOutcome.finished calls
  | PyStmt.expr uses :: rest =>
    match firstMissing env uses with
    | some n => RunOutcome.nameError n calls
    | none => runStmts env (calls ++ uses.filter (evaluatorNames.contains ·)) rest
  | PyStmt.assign t uses :: rest =>
    match firstMissing env uses with
    | some n => RunOutcome.nameError n calls
    | none =>
      runStmts (env ++ [t]) (calls ++ uses.filter (evaluatorNames.contains ·)) rest

/-- Running the script as its entry point: execute the `__main__` block
in the module environment. -/
def runMain : RunOutcome :=
  runStmts (moduleDefinedNames ++ builtinNames) [] mainStmts

/- ------------------- seeded pipeline (determinism model) ----------------- -/

/-- The external library routines the pipeline calls, for a fixed
installed library version. Every stochastic routine takes its
`random_state` seed explicitly, which is how the script passes `SEED` to
`StratifiedShuffleSplit` and `StratifiedKFold`. -/
structure LibFuns where
  sssSplits : ℕ → ℕ → Mat → List Int → List SplitIx
  skfSplits : ℕ → ℕ → Mat → List Int → List SplitIx
  gsPredict : GsOracle
  gsBestParams : String → Mat → List Int → List (String × ℚ)
  fitTime : ℕ → String → ℚ
  stdScale : Mat → Mat
  mmScale : Mat → Mat
  qkEval : QCircuit → Mat → Mat → Mat
  svcFitPredict : SvcOracle

/-- `SEED = 12345`. -/
def SEED : ℕ := 12345

/-- The split compositions realized by the two evaluators for a given
seed: `StratifiedShuffleSplit(n_splits=3, ..., random_state=seed)` on
the standardized features, and `StratifiedShuffleSplit(n_splits=10, ...,
random_state=seed)` on the min-max-scaled features. -/
def pipelineSplits (L : LibFuns) (seed : ℕ) (X : Mat) (y : List Int) :
    List SplitIx × List SplitIx :=
  (L.sssSplits seed 3 (L.stdScale X) y,
   L.sssSplits seed 10 (L.mmScale X) y)

/-- The hyperparameters selected by a run with a given seed: for each
classical split and model, the grid-search best parameters on the
training partition; for each feature map and quantum split, the `bestC`
chosen by the nested loop (with `StratifiedKFold(n_splits=10, ...,
random_state=seed)` folds). -/
def pipelineSelections (L : LibFuns) (seed : ℕ) (X : Mat) (y : List Int) :
    List (List (String × ℚ)) × List (Option ℚ) :=
  let Xc := L.stdScale X
  let Xq := L.mmScale X
  let cSel := (L.sssSplits seed 3 Xc y).flatMap (fun sp =>
    classical_grids.map (fun mg =>
      L.gsBestParams mg.1 (selectRows Xc sp.1) (selectIdx y sp.1)))
  let qSel := build_maps.flatMap (fun entry =>
    (L.sssSplits seed 10 Xq y).map (fun sp =>
      let Xtr := scaleMat entry.2.2 (selectRows Xq sp.1)
      let ytr := selectIdx y sp.1
      let Ktr := L.qkEval entry.2.1 Xtr Xtr
      (splitSelectC L.svcFitPredict Ktr ytr
        (L.skfSplits seed 10 Ktr ytr)).1))
  (cSel, qSel)

/-- A full run of the pipeline for a given seed: the classical table,
the quantum result, the split compositions and the selections. -/
def runPipeline (L : LibFuns) (seed : ℕ) (X : Mat) (y : List Int) :
    List CRow × Except String (List QRow) ×
      (List SplitIx × List SplitIx) ×
      (List (List (String × ℚ)) × List (Option ℚ)) :=
  (eval_classical L.gsPredict L.fitTime L.stdScale X y
     (L.sssSplits seed 3 (L.stdScale X) y),
   eval_qsvm L.qkEval L.svcFitPredict
     (fun K yt => L.skfSplits seed 10 K yt) L.mmScale X y
     (L.sssSplits seed 10 (L.mmScale X) y),
   pipelineSplits L seed X y,
   pipelineSelections L seed X y)

/- ----------------------- witness fixtures ----------------------- -/

/-- A degenerate SVC oracle predicting `1` for every validation row. -/
def svcConst1 : SvcOracle := fun _ _ _ Kval => Kval.map (fun _ => 1)

/-- A degenerate SVC oracle predicting `-1` for every validation row. -/
def svcConstNeg : SvcOracle := fun _ _ _ Kval => Kval.map (fun _ => -1)

/-- A degenerate kernel oracle: every similarity is `1`. -/
def kernelOnes : Mat → Mat → Mat := fun A B => A.map (fun _ => B.map (fun _ => 1))

/-- `kernelOnes` for every feature map. -/
def qkOnes : QCircuit → Mat → Mat → Mat := fun _ => kernelOnes

/-- A degenerate fold generator: one fold, fitting and validating on
index `0`. -/
def foldsOne : Mat → List Int → List SplitIx := fun _ _ => [([0], [0])]

/-- Ten identical outer splits: train on index `0`, test on index `1`. -/
def splitsTen : List SplitIx := List.replicate 10 ([0], [1])

/-- Three identical outer splits: train on index `0`, test on index `1`. -/
def splitsThree : List SplitIx := List.replicate 3 ([0], [1])

/-- A two-sample feature matrix. -/
def X2 : Mat := [[0], [0]]

/-- Labels for the two samples. -/
def y2 : List Int := [1, -1]

/-- A degenerate grid-search oracle predicting `1` for every test row. -/
def gsConst1 : GsOracle := fun _ _ _ Xts => Xts.map (fun _ => 1)

/-- Concrete library routines for instantiating the pipeline model. -/
def libFunsW : LibFuns :=
  { sssSplits := fun _ n _ _ => List.replicate n ([0], [1]),
    skfSplits := fun _ _ _ _ => [([0], [0])],
    gsPredict := gsConst1,
    gsBestParams := fun _ _ _ => [("C", 1)],
    fitTime := fun _ _ => 0,
    stdScale := id,
    mmScale := id,
    qkEval := qkOnes,
    svcFitPredict := svcConst1 }

/-- A quantum summary row with the lower mean accuracy. -/
def qrowLow : QRow := { map := "A", acc_mean := 1/2, acc_var := 0, f1_mean := 1/2 }

/-- A quantum summary row with the higher mean accuracy. -/
def qrowHigh : QRow := { map := "B", acc_mean := 9/10, acc_var := 0, f1_mean := 9/10 }

/- ----------------------- helper lemmas: metric bounds ----------------------- -/

theorem accuracy_score_nonneg (yt yp : List Int) : 0 ≤ accuracy_score yt yp := by
  unfold accuracy_score
  positivity

theorem accuracy_score_le_one (yt yp : List Int) : accuracy_score yt yp ≤ 1 := by
  unfold accuracy_score
  apply div_le_one_of_le₀
  · exact_mod_cast le_trans (List.countP_le_length _)
      (le_trans (List.length_zip ..).le (min_le_left _ _))
  · positivity

theorem f1_score_nonneg (yt yp : List Int) : 0 ≤ f1_score yt yp := by
  simp only [f1_score]
  split
  · exact le_refl 0
  · positivity

theorem f1_score_le_one (yt yp : List Int) : f1_score yt yp ≤ 1 := by
  simp only [f1_score]
  split
  · exact zero_le_one
  · apply div_le_one_of_le₀
    · exact_mod_cast le_trans (Nat.le_add_right _ _) (Nat.le_add_right _ _)
    · positivity

theorem listMean_nonneg (l : List ℚ) (h : ∀ x ∈ l, 0 ≤ x) : 0 ≤ listMean l := by
  unfold listMean
  exact div_nonneg (List.sum_nonneg h) (by positivity)

theorem listMean_le_one (l : List ℚ) (h : ∀ x ∈ l, x ≤ 1) : listMean l ≤ 1 := by
  unfold listMean
  apply div_le_one_of_le₀
  · calc l.sum ≤ l.length • (1 : ℚ) := List.sum_le_card_nsmul l 1 h
      _ = (l.length : ℚ) := by simp
  · positivity

/- ------------------- helper lemmas: the best-C fold ------------------- -/

theorem selectLoop_spec (l : List (ℚ × ℚ)) :
    ∀ (st res : Option ℚ × ℚ), l.foldl selectStep st = res →
    st.2 ≤ res.2 ∧
    (∀ cm ∈ l, cm.2 ≤ res.2) ∧
    (res = st ∨
      ∃ l₁ c l₂, l = l₁ ++ (c, res.2) :: l₂ ∧
        res.1 = some c ∧ st.2 < res.2 ∧
        ∀ cm ∈ l₁, cm.2 < res.2) := by
  induction l with
  | nil =>
    intro st res hres
    simp only [List.foldl_nil] at hres
    rw [← hres]
    exact ⟨le_refl _, fun cm hm => absurd hm (List.not_mem_nil cm), Or.inl rfl⟩
  | cons hd tl ih =>
    intro st res hres
    obtain ⟨c0, m0⟩ := hd
    simp only [List.foldl_cons] at hres
    by_cases h : st.2 < m0
    · have hstep : selectStep st (c0, m0) = (some c0, m0) := by
        unfold selectStep
        rw [if_pos h]
      rw [hstep] at hres
      obtain ⟨ih1, ih2, ih3⟩ := ih (some c0, m0) res hres
      refine ⟨le_trans (le_of_lt h) ih1, ?_, ?_⟩
      · intro cm hm
        rcases List.mem_cons.mp hm with hcm | hcm
        · rw [hcm]
          exact ih1
        · exact ih2 cm hcm
      · right
        rcases ih3 with heq | ⟨l₁, c, l₂, hdec, hsome, hlt, hall⟩
        · refine ⟨[], c0, tl, ?_, ?_, ?_, ?_⟩
          · rw [heq]
            rfl
          · rw [heq]
          · rw [heq]
            exact h
          · intro cm hm
            exact absurd hm (List.not_mem_nil cm)
        · refine ⟨(c0, m0) :: l₁, c, l₂, ?_, hsome, lt_trans h hlt, ?_⟩
          · rw [hdec]
            rfl
          · intro cm hm
            rcases List.mem_cons.mp hm with hcm | hcm
            · rw [hcm]
              exact hlt
            · exact hall cm hcm
    · have hstep : selectStep st (c0, m0) = st := by
        unfold selectStep
        rw [if_neg h]
      rw [hstep] at hres
      obtain ⟨ih1, ih2, ih3⟩ := ih st res hres
      refine ⟨ih1, ?_, ?_⟩
      · intro cm hm
        rcases List.mem_cons.mp hm with hcm | hcm
        · rw [hcm]
          exact le_trans (not_lt.mp h) ih1
        · exact ih2 cm hcm
      · rcases ih3 with heq | ⟨l₁, c, l₂, hdec, hsome, hlt, hall⟩
        · left
          exact heq
        · right
          refine ⟨(c0, m0) :: l₁, c, l₂, ?_, hsome, hlt, ?_⟩
          · rw [hdec]
            rfl
          · intro cm hm
            rcases List.mem_cons.mp hm with hcm | hcm
            · rw [hcm]
              exact lt_of_le_of_lt (not_lt.mp h) hlt
            · exact hall cm hcm

/- ------------------- helper lemmas: collectE ------------------- -/

theorem collectE_ok_length {α β : Type} (f : α → Except String β) :
    ∀ (l : List α) (bs : List β), collectE f l = Except.ok bs →
      bs.length = l.length := by
  intro l
  induction l with
  | nil =>
    intro bs h
    simp only [collectE] at h
    cases h
    rfl
  | cons a tl ih =>
    intro bs h
    simp only [collectE] at h
    cases hfa : f a with
    | error e =>
      rw [hfa] at h
      cases h
    | ok b =>
      rw [hfa] at h
      cases hrest : collectE f tl with
      | error e =>
        rw [hrest] at h
        cases h
      | ok bs' =>
        rw [hrest] at h
        cases h
        simp [ih bs' hrest]

theorem collectE_ok_forall {α β : Type} (f : α → Except String β) :
    ∀ (l : List α) (bs : List β), collectE f l = Except.ok bs →
      ∀ b ∈ bs, ∃ a ∈ l, f a = Except.ok b := by
  intro l
  induction l with
  | nil =>
    intro bs h
    simp only [collectE] at h
    cases h
    intro b hb
    exact absurd hb (List.not_mem_nil b)
  | cons a tl ih =>
    intro bs h
    simp only [collectE] at h
    cases hfa : f a with
    | error e =>
      rw [hfa] at h
      cases h
    | ok b0 =>
      rw [hfa] at h
      cases hrest : collectE f tl with
      | error e =>
        rw [hrest] at h
        cases h
      | ok bs' =>
        rw [hrest] at h
        cases h
        intro b hb
        rcases List.mem_cons.mp hb with hb | hb
        · exact ⟨a, List.mem_cons_self a tl, by rw [hb]; exact hfa⟩
        · obtain ⟨a', ha', hfa'⟩ := ih bs' hrest b hb
          exact ⟨a', List.mem_cons_of_mem a ha', hfa'⟩

theorem collectE_ok_map {α β γ : Type} (f : α → Except String β)
    (g : β → γ) (h : α → γ) :
    ∀ (l : List α) (bs : List β), collectE f l = Except.ok bs →
      (∀ a b, f a = Except.ok b → g b = h a) →
      bs.map g = l.map h := by
  intro l
  induction l with
  | nil =>
    intro bs hok _
    simp only [collectE] at hok
    cases hok
    rfl
  | cons a tl ih =>
    intro bs hok hgh
    simp only [collectE] at hok
    cases hfa : f a with
    | error e =>
      rw [hfa] at hok
      cases hok
    | ok b0 =>
      rw [hfa] at hok
      cases hrest : collectE f tl with
      | error e =>
        rw [hrest] at hok
        cases hok
      | ok bs' =>
        rw [hrest] at hok
        cases hok
        simp only [List.map_cons]
        rw [hgh a b0 hfa, ih bs' hrest hgh]

/- ------------------- helper lemmas: quantum evaluator ------------------- -/

theorem qsvmSplit_ok_bounds (fk : Mat → Mat → Mat) (svc : SvcOracle)
    (foldsOf : Mat → List Int → List SplitIx) (ds : ℚ) (Xs : Mat)
    (y : List Int) (sp : SplitIx) (pr : ℚ × ℚ)
    (h : qsvmSplit fk svc foldsOf ds Xs y sp = Except.ok pr) :
    0 ≤ pr.1 ∧ pr.1 ≤ 1 ∧ 0 ≤ pr.2 ∧ pr.2 ≤ 1 := by
  simp only [qsvmSplit, qsvmSplitLog] at h
  split at h
  · cases h
  · cases h
    exact ⟨accuracy_score_nonneg _ _, accuracy_score_le_one _ _,
      f1_score_nonneg _ _, f1_score_le_one _ _⟩

theorem qsvmMapRow_ok (qk : QCircuit → Mat → Mat → Mat) (svc : SvcOracle)
    (foldsOf : Mat → List Int → List SplitIx) (Xs : Mat) (y : List Int)
    (splits : List SplitIx) (entry : String × QCircuit × ℚ) (row : QRow)
    (h : qsvmMapRow qk svc foldsOf Xs y splits entry = Except.ok row) :
    row.map = entry.1 ∧
    0 ≤ row.acc_mean ∧ row.acc_mean ≤ 1 ∧
    0 ≤ row.f1_mean ∧ row.f1_mean ≤ 1 ∧
    ∃ res : List (ℚ × ℚ), res.length = splits.length ∧
      row.acc_mean = listMean (res.map Prod.fst) ∧
      row.acc_var = listVar (res.map Prod.fst) ∧
      row.f1_mean = listMean (res.map Prod.snd) := by
  unfold qsvmMapRow at h
  split at h
  · cases h
  case h_2 res heq =>
    cases h
    refine ⟨rfl, ?_, ?_, ?_, ?_,
      res, collectE_ok_length _ _ _ heq, rfl, rfl, rfl⟩
    · apply listMean_nonneg
      intro x hx
      rw [List.mem_map] at hx
      obtain ⟨pr, hpr, hx⟩ := hx
      obtain ⟨a, _, ha⟩ := collectE_ok_forall _ _ _ heq pr hpr
      rw [← hx]
      exact (qsvmSplit_ok_bounds _ _ _ _ _ _ _ _ ha).1
    · apply listMean_le_one
      intro x hx
      rw [List.mem_map] at hx
      obtain ⟨pr, hpr, hx⟩ := hx
      obtain ⟨a, _, ha⟩ := collectE_ok_forall _ _ _ heq pr hpr
      rw [← hx]
      exact (qsvmSplit_ok_bounds _ _ _ _ _ _ _ _ ha).2.1
    · apply listMean_nonneg
      intro x hx
      rw [List.mem_map] at hx
      obtain ⟨pr, hpr, hx⟩ := hx
      obtain ⟨a, _, ha⟩ := collectE_ok_forall _ _ _ heq pr hpr
      rw [← hx]
      exact (qsvmSplit_ok_bounds _ _ _ _ _ _ _ _ ha).2.2.1
    · apply listMean_le_one
      intro x hx
      rw [List.mem_map] at hx
      obtain ⟨pr, hpr, hx⟩ := hx
      obtain ⟨a, _, ha⟩ := collectE_ok_forall _ _ _ heq pr hpr
      rw [← hx]
      exact (qsvmSplit_ok_bounds _ _ _ _ _ _ _ _ ha).2.2.2

/- ----------------------------- claim C1 ----------------------------- -/

/-- Claim C1: in `eval_qsvm`'s nested model-selection loop, whenever a
regularization constant `c` is chosen for a split, its mean fold
validation accuracy equals the tracked maximum `maxAcc`, that maximum is
greater than or equal to the mean accuracy of every candidate in
`{0.1, 1, 10}`, and every candidate seen before `c` in loop order has
strictly smaller mean accuracy — so on ties the first-seen (lowest, in
loop order 0.1, 1, 10) candidate is kept. -/
theorem qsvm_bestC_argmax_first (svc : SvcOracle) (Ktr : Mat) (ytr : List Int)
    (folds : List SplitIx) (c : ℚ)
    (h : (splitSelectC svc Ktr ytr folds).1 = some c) :
    (∀ C ∈ Cgrid,
      candMeanAcc svc Ktr ytr folds C ≤ (splitSelectC svc Ktr ytr folds).2) ∧
    candMeanAcc svc Ktr ytr folds c = (splitSelectC svc Ktr ytr folds).2 ∧
    ∃ l₁ l₂, qsvmCandList svc Ktr ytr folds =
        l₁ ++ (c, (splitSelectC svc Ktr ytr folds).2) :: l₂ ∧
      ∀ cm ∈ l₁, cm.2 < (splitSelectC svc Ktr ytr folds).2 := by
  obtain ⟨h1, h2, h3⟩ := selectLoop_spec (qsvmCandList svc Ktr ytr folds)
    (none, 0) (splitSelectC svc Ktr ytr folds) rfl
  rcases h3 with heq | ⟨l₁, c', l₂, hdec, hsome, hlt, hall⟩
  · rw [heq] at h
    simp at h
  · have hc : c' = c := Option.some.inj (hsome.symm.trans h)
    subst hc
    refine ⟨?_, ?_, l₁, l₂, hdec, hall⟩
    · intro C hC
      exact h2 (C, candMeanAcc svc Ktr ytr folds C) (List.mem_map_of_mem _ hC)
    · have hmem : (c', (splitSelectC svc Ktr ytr folds).2) ∈
          qsvmCandList svc Ktr ytr folds := by
        rw [hdec]
        exact List.mem_append_right _ (List.mem_cons_self _ _)
      simp only [qsvmCandList, List.mem_map] at hmem
      obtain ⟨C, hC, hCeq⟩ := hmem
      injection hCeq with e1 e2
      rw [← e1]
      exact e2

/-- Witness for `qsvm_bestC_argmax_first`: a concrete split where all
three candidates score mean accuracy 1 and the first-seen `C = 0.1` is
kept. -/
theorem qsvm_bestC_argmax_first_witness :
    (splitSelectC svcConst1 [[1]] [1] [([0], [0])]).1 = some (1/10) ∧
    ((∀ C ∈ Cgrid, candMeanAcc svcConst1 [[1]] [1] [([0], [0])] C ≤
        (splitSelectC svcConst1 [[1]] [1] [([0], [0])]).2) ∧
     candMeanAcc svcConst1 [[1]] [1] [([0], [0])] (1/10) =
        (splitSelectC svcConst1 [[1]] [1] [([0], [0])]).2 ∧
     ∃ l₁ l₂, qsvmCandList svcConst1 [[1]] [1] [([0], [0])] =
         l₁ ++ ((1/10 : ℚ), (splitSelectC svcConst1 [[1]] [1] [([0], [0])]).2) :: l₂ ∧
       ∀ cm ∈ l₁, cm.2 < (splitSelectC svcConst1 [[1]] [1] [([0], [0])]).2) :=
  ⟨by with_unfolding_all rfl,
   qsvm_bestC_argmax_first svcConst1 [[1]] [1] [([0], [0])] (1/10)
     (by with_unfolding_all rfl)⟩

/- ----------------------------- claim C2 ----------------------------- -/

/-- Claim C2: `bestC` starts as `None` with `maxAcc = 0` and is only
updated on strictly greater mean accuracy, so when every candidate's
mean validation accuracy is `0` (here: an SVC oracle predicting `-1`
against all-`+1` validation labels), `bestC` stays `None` and the final
`SVC(kernel='precomputed', C=None)` fit is reached with an invalid
regularization value: the no-candidate-selected branch is reachable. -/
theorem qsvm_bestC_none_reachable :
    qsvmCandList svcConstNeg [[1]] [1] [([0], [0])] =
      [(1/10, 0), (1, 0), (10, 0)] ∧
    splitSelectC svcConstNeg [[1]] [1] [([0], [0])] = (none, 0) ∧
    qsvmSplit kernelOnes svcConstNeg foldsOne 1 X2 y2 ([0], [1]) =
      Except.error "SVC(kernel=precomputed, C=None): invalid C" := by
  refine ⟨?_, ?_, ?_⟩ <;> with_unfolding_all rfl

/- ----------------------------- claim C3 ----------------------------- -/

/-- Claim C3 counterexample: `df_q.sort_values(...)` is only printed;
the sheet is written from `df_q` itself. With two rows whose mean
accuracies are out of descending order, the rows written to the
`Cuanticos` sheet differ from the sorted order the claim asserts. -/
theorem quantum_sheet_not_sorted :
    sortQuantumDesc [qrowLow, qrowHigh] = [qrowHigh, qrowLow] ∧
    quantumSheetRows (mainReport [] [qrowLow, qrowHigh]).2 =
      some [qrowLow, qrowHigh] ∧
    quantumSheetRows (mainReport [] [qrowLow, qrowHigh]).2 ≠
      some (sortQuantumDesc [qrowLow, qrowHigh]) := by
  refine ⟨?_, ?_, ?_⟩
  · with_unfolding_all rfl
  · with_unfolding_all rfl
  · intro h
    have : ([qrowLow, qrowHigh] : List QRow) = [qrowHigh, qrowLow] := by
      have h2 : sortQuantumDesc [qrowLow, qrowHigh] = [qrowHigh, qrowLow] := by
        with_unfolding_all rfl
      have h3 : quantumSheetRows (mainReport [] [qrowLow, qrowHigh]).2 =
          some [qrowLow, qrowHigh] := by
        with_unfolding_all rfl
      rw [h3, h2] at h
      exact Option.some.inj h
    have hne : qrowLow ≠ qrowHigh := by
      intro he
      have hmapeq := congrArg QRow.map he
      simp [qrowLow, qrowHigh] at hmapeq
    exact hne (List.cons.inj this).1

/-- Claim C3 amended: the Report Aggregator sorts the quantum summary
rows by descending mean accuracy only for the console output (the
printed table is a permutation of `df_q` sorted by `accDesc`), while the
`Cuanticos` sheet of the spreadsheet contains the rows of `df_q` in
their original, unsorted catalog order. -/
theorem quantum_printed_sorted_sheet_unsorted (df_c : List CRow)
    (df_q : List QRow) :
    List.Sorted accDesc (mainReport df_c df_q).1 ∧
    List.Perm (mainReport df_c df_q).1 df_q ∧
    quantumSheetRows (mainReport df_c df_q).2 = some df_q := by
  refine ⟨List.sorted_insertionSort accDesc df_q,
    List.perm_insertionSort accDesc df_q, ?_⟩
  simp [quantumSheetRows, mainReport, writeResults, List.find?]

/- ----------------------------- claim C4 ----------------------------- -/

/-- Claim C4 counterexample: the workbook has two sheets, but they are
named `Clasicos` and `Cuanticos`, not `Classical Results` and
`Quantum Results`. -/
theorem sheet_names_not_english :
    (writeResults [] []).sheets.map Prod.fst = ["Clasicos", "Cuanticos"] ∧
    ¬ "Classical Results" ∈ (writeResults [] []).sheets.map Prod.fst ∧
    ¬ "Quantum Results" ∈ (writeResults [] []).sheets.map Prod.fst := by
  refine ⟨rfl, ?_, ?_⟩ <;> decide

/-- Claim C4 amended: the output artifact is a single spreadsheet file
(at the fixed path `Resultados_IrisLineal_QBoost.xlsx`) with exactly two
sheets, named `Clasicos` (classical results) and `Cuanticos` (quantum
results), and the report step writes exactly this one workbook from the
two final tables. -/
theorem workbook_two_sheets (df_c : List CRow) (df_q : List QRow) :
    (writeResults df_c df_q).sheets.length = 2 ∧
    (writeResults df_c df_q).sheets.map Prod.fst = ["Clasicos", "Cuanticos"] ∧
    (writeResults df_c df_q).path = "Resultados_IrisLineal_QBoost.xlsx" ∧
    (mainReport df_c df_q).2 = writeResults df_c df_q :=
  ⟨rfl, rfl, rfl, rfl⟩

/- ----------------------------- claim C5 ----------------------------- -/

/-- Claim C5: whenever the stratified shuffle splitter yields its 3
configured splits, `eval_classical` produces exactly 3 × 4 = 12 result
rows — one per (split, model) pair, with split indices 1..3 and the four
model names of `classical_grids` in order — and every row's accuracy and
F1 lie in `[0, 1]`. -/
theorem eval_classical_rows (gs : GsOracle) (ft : ℕ → String → ℚ)
    (sc : Mat → Mat) (X : Mat) (y : List Int) (splits : List SplitIx)
    (h : splits.length = 3) :
    (eval_classical gs ft sc X y splits).length = 12 ∧
    (eval_classical gs ft sc X y splits).map (fun r => (r.split, r.model)) =
      [(1, "LogReg"), (1, "SVM-linear"), (1, "SVM-poly"), (1, "SVM-rbf"),
       (2, "LogReg"), (2, "SVM-linear"), (2, "SVM-poly"), (2, "SVM-rbf"),
       (3, "LogReg"), (3, "SVM-linear"), (3, "SVM-poly"), (3, "SVM-rbf")] ∧
    ∀ r ∈ eval_classical gs ft sc X y splits,
      0 ≤ r.acc ∧ r.acc ≤ 1 ∧ 0 ≤ r.f1 ∧ r.f1 ≤ 1 := by
  refine ⟨?_, ?_, ?_⟩
  · obtain ⟨s1, s2, s3, rfl⟩ := List.length_eq_three.mp h
    simp [eval_classical, classical_grids, List.enum, List.enumFrom]
  · obtain ⟨s1, s2, s3, rfl⟩ := List.length_eq_three.mp h
    simp [eval_classical, classical_grids, List.enum, List.enumFrom]
  · intro r hr
    simp only [eval_classical, List.mem_flatMap, List.mem_map] at hr
    obtain ⟨p, hp, mg, hmg, hrow⟩ := hr
    rw [← hrow]
    exact ⟨accuracy_score_nonneg _ _, accuracy_score_le_one _ _,
      f1_score_nonneg _ _, f1_score_le_one _ _⟩

/-- Witness for `eval_classical_rows` at three concrete splits of a
two-sample dataset. -/
theorem eval_classical_rows_witness :
    splitsThree.length = 3 ∧
    ((eval_classical gsConst1 (fun _ _ => (0:ℚ)) id X2 y2 splitsThree).length = 12 ∧
     (eval_classical gsConst1 (fun _ _ => (0:ℚ)) id X2 y2 splitsThree).map
        (fun r => (r.split, r.model)) =
       [(1, "LogReg"), (1, "SVM-linear"), (1, "SVM-poly"), (1, "SVM-rbf"),
        (2, "LogReg"), (2, "SVM-linear"), (2, "SVM-poly"), (2, "SVM-rbf"),
        (3, "LogReg"), (3, "SVM-linear"), (3, "SVM-poly"), (3, "SVM-rbf")] ∧
     ∀ r ∈ eval_classical gsConst1 (fun _ _ => (0:ℚ)) id X2 y2 splitsThree,
       0 ≤ r.acc ∧ r.acc ≤ 1 ∧ 0 ≤ r.f1 ∧ r.f1 ≤ 1) :=
  ⟨rfl, eval_classical_rows gsConst1 (fun _ _ => (0:ℚ)) id X2 y2 splitsThree rfl⟩

/- ----------------------------- claim C6 ----------------------------- -/

/-- Claim C6: when the splitter yields its 10 configured outer splits
and every kernel computation and fit succeeds (`eval_qsvm` returns
`ok`), the quantum evaluator produces exactly 5 summary rows, one per
feature-map catalog entry in catalog order, each aggregating one
`(accuracy, F1)` pair per split (10 of them), with mean accuracy in
`[0,1]`, accuracy standard deviation ≥ 0 and mean F1 in `[0,1]`. -/
theorem eval_qsvm_rows (qk : QCircuit → Mat → Mat → Mat) (svc : SvcOracle)
    (foldsOf : Mat → List Int → List SplitIx) (mm : Mat → Mat) (X : Mat)
    (y : List Int) (splits : List SplitIx) (out : List QRow)
    (hlen : splits.length = 10)
    (hok : eval_qsvm qk svc foldsOf mm X y splits = Except.ok out) :
    out.length = 5 ∧
    out.map QRow.map =
      ["ZF-reps1", "ZF-reps2", "ZF-alpha05", "ZF-LinEnt", "ZF-alpha05-LinEnt"] ∧
    ∀ r ∈ out, 0 ≤ r.acc_mean ∧ r.acc_mean ≤ 1 ∧ 0 ≤ QRow.acc_std r ∧
      0 ≤ r.f1_mean ∧ r.f1_mean ≤ 1 ∧
      ∃ res : List (ℚ × ℚ), res.length = 10 ∧
        r.acc_mean = listMean (res.map Prod.fst) ∧
        r.acc_var = listVar (res.map Prod.fst) ∧
        r.f1_mean = listMean (res.map Prod.snd) := by
  unfold eval_qsvm at hok
  refine ⟨?_, ?_, ?_⟩
  · rw [collectE_ok_length _ _ _ hok]
    rfl
  · have hnames : ∀ a b,
        qsvmMapRow qk svc foldsOf (mm X) y splits a = Except.ok b →
          QRow.map b = Prod.fst a :=
      fun a b hab => (qsvmMapRow_ok _ _ _ _ _ _ _ _ hab).1
    rw [collectE_ok_map _ QRow.map Prod.fst build_maps out hok hnames]
    rfl
  · intro r hr
    obtain ⟨entry, _, hentry⟩ := collectE_ok_forall _ _ _ hok r hr
    obtain ⟨_, hnn, hle, fnn, fle, res, hreslen, hm1, hm2, hm3⟩ :=
      qsvmMapRow_ok _ _ _ _ _ _ _ _ hentry
    refine ⟨hnn, hle, Real.sqrt_nonneg _, fnn, fle, res, ?_, hm1, hm2, hm3⟩
    rw [hreslen, hlen]

/-- Witness for `eval_qsvm_rows` at a concrete two-sample input with
degenerate oracles: all 10 splits succeed with accuracy and F1 equal to
0, so every summary row is `(name, 0, 0, 0)`. -/
theorem eval_qsvm_rows_witness :
    (splitsTen.length = 10 ∧
     eval_qsvm qkOnes svcConst1 foldsOne id X2 y2 splitsTen = Except.ok
       [{ map := "ZF-reps1", acc_mean := 0, acc_var := 0, f1_mean := 0 },
        { map := "ZF-reps2", acc_mean := 0, acc_var := 0, f1_mean := 0 },
        { map := "ZF-alpha05", acc_mean := 0, acc_var := 0, f1_mean := 0 },
        { map := "ZF-LinEnt", acc_mean := 0, acc_var := 0, f1_mean := 0 },
        { map := "ZF-alpha05-LinEnt", acc_mean := 0, acc_var := 0, f1_mean := 0 }]) ∧
    ([({ map := "ZF-reps1", acc_mean := 0, acc_var := 0, f1_mean := 0 } : QRow),
      { map := "ZF-reps2", acc_mean := 0, acc_var := 0, f1_mean := 0 },
      { map := "ZF-alpha05", acc_mean := 0, acc_var := 0, f1_mean := 0 },
      { map := "ZF-LinEnt", acc_mean := 0, acc_var := 0, f1_mean := 0 },
      { map := "ZF-alpha05-LinEnt", acc_mean := 0, acc_var := 0, f1_mean := 0 }].length = 5 ∧
     [({ map := "ZF-reps1", acc_mean := 0, acc_var := 0, f1_mean := 0 } : QRow),
      { map := "ZF-reps2", acc_mean := 0, acc_var := 0, f1_mean := 0 },
      { map := "ZF-alpha05", acc_mean := 0, acc_var := 0, f1_mean := 0 },
      { map := "ZF-LinEnt", acc_mean := 0, acc_var := 0, f1_mean := 0 },
      { map := "ZF-alpha05-LinEnt", acc_mean := 0, acc_var := 0, f1_mean := 0 }].map QRow.map =
       ["ZF-reps1", "ZF-reps2", "ZF-alpha05", "ZF-LinEnt", "ZF-alpha05-LinEnt"] ∧
     ∀ r ∈ [({ map := "ZF-reps1", acc_mean := 0, acc_var := 0, f1_mean := 0 } : QRow),
      { map := "ZF-reps2", acc_mean := 0, acc_var := 0, f1_mean := 0 },
      { map := "ZF-alpha05", acc_mean := 0, acc_var := 0, f1_mean := 0 },
      { map := "ZF-LinEnt", acc_mean := 0, acc_var := 0, f1_mean := 0 },
      { map := "ZF-alpha05-LinEnt", acc_mean := 0, acc_var := 0, f1_mean := 0 }],
       0 ≤ r.acc_mean ∧ r.acc_mean ≤ 1 ∧ 0 ≤ QRow.acc_std r ∧
       0 ≤ r.f1_mean ∧ r.f1_mean ≤ 1 ∧
       ∃ res : List (ℚ × ℚ), res.length = 10 ∧
         r.acc_mean = listMean (res.map Prod.fst) ∧
         r.acc_var = listVar (res.map Prod.fst) ∧
         r.f1_mean = listMean (res.map Prod.snd)) :=
  ⟨⟨rfl, by with_unfolding_all rfl⟩,
   eval_qsvm_rows qkOnes svcConst1 foldsOne id X2 y2 splitsTen _ rfl
     (by with_unfolding_all rfl)⟩

/- ----------------------------- claim C7 ----------------------------- -/

/-- Claim C7: during one split of `eval_qsvm` the kernel routine is
invoked exactly twice — once for the train-train matrix `Ktr` (arguments
`(Xtr, Xtr)`) and once for the test-train matrix (arguments
`(Xts, Xtr)`) — and never inside the fold loop: the result is
independent of the call log, the candidate scoring receives only the
sub-slices `Ktr[tri][:,tri]` (fit) and `Ktr[vali][:,tri]` (validation),
and every entry of such a slice is an entry of the original `Ktr` at the
fold indices, so no kernel value is recomputed per fold. -/
theorem qsvm_kernel_once_folds_sliced (fk : Mat → Mat → Mat) (svc : SvcOracle)
    (foldsOf : Mat → List Int → List SplitIx) (ds : ℚ) (Xs : Mat)
    (y : List Int) (sp : SplitIx) (log0 : List (Mat × Mat))
    (K : Mat) (ytr : List Int) (folds : List SplitIx) (C : ℚ)
    (rows cols : List ℕ) (a b : ℕ)
    (ha : a < rows.length) (hb : b < cols.length) :
    (qsvmSplitLog fk svc foldsOf ds Xs y sp log0).2 =
      log0 ++ [(scaleMat ds (selectRows Xs sp.1), scaleMat ds (selectRows Xs sp.1)),
               (scaleMat ds (selectRows Xs sp.2), scaleMat ds (selectRows Xs sp.1))] ∧
    (qsvmSplitLog fk svc foldsOf ds Xs y sp log0).1 =
      qsvmSplit fk svc foldsOf ds Xs y sp ∧
    candMeanAcc svc K ytr folds C =
      listMean (folds.map (fun f =>
        accuracy_score (selectIdx ytr f.2)
          (svc C (sliceMatrix K f.1 f.1) (selectIdx ytr f.1)
            (sliceMatrix K f.2 f.1)))) ∧
    ((sliceMatrix K rows cols).getD a []).getD b 0 =
      (K.getD (rows.getD a 0) []).getD (cols.getD b 0) 0 := by
  refine ⟨?_, rfl, rfl, ?_⟩
  · simp [qsvmSplitLog, kernelCall]
  · unfold sliceMatrix
    have ha2 : a < (rows.map
        (fun i => cols.map (fun j => (K.getD i []).getD j 0))).length := by
      simpa using ha
    rw [List.getD_eq_getElem _ _ ha2, List.getElem_map]
    have hb2 : b < (cols.map
        (fun j => (K.getD rows[a] []).getD j 0)).length := by
      simpa using hb
    rw [List.getD_eq_getElem _ _ hb2, List.getElem_map]
    rw [List.getD_eq_getElem rows _ ha, List.getD_eq_getElem cols _ hb]

/-- Witness for `qsvm_kernel_once_folds_sliced` at a concrete split,
fold and matrix entry. -/
theorem qsvm_kernel_once_folds_sliced_witness :
    ((0 < ([0] : List ℕ).length) ∧ (0 < ([0] : List ℕ).length)) ∧
    ((qsvmSplitLog kernelOnes svcConst1 foldsOne 1 X2 y2 ([0], [1]) []).2 =
      [] ++ [(scaleMat 1 (selectRows X2 [0]), scaleMat 1 (selectRows X2 [0])),
             (scaleMat 1 (selectRows X2 [1]), scaleMat 1 (selectRows X2 [0]))] ∧
     (qsvmSplitLog kernelOnes svcConst1 foldsOne 1 X2 y2 ([0], [1]) []).1 =
      qsvmSplit kernelOnes svcConst1 foldsOne 1 X2 y2 ([0], [1]) ∧
     candMeanAcc svcConst1 [[1]] [1] [([0], [0])] 1 =
      listMean ([(([0] : List ℕ), ([0] : List ℕ))].map (fun f =>
        accuracy_score (selectIdx [1] f.2)
          (svcConst1 1 (sliceMatrix [[1]] f.1 f.1) (selectIdx [1] f.1)
            (sliceMatrix [[1]] f.2 f.1)))) ∧
     ((sliceMatrix [[1]] [0] [0]).getD 0 []).getD 0 0 =
      (([[1]] : Mat).getD (([0] : List ℕ).getD 0 0) []).getD
        (([0] : List ℕ).getD 0 0) 0) :=
  ⟨⟨by decide, by decide⟩,
   qsvm_kernel_once_folds_sliced kernelOnes svcConst1 foldsOne 1 X2 y2
     ([0], [1]) [] [[1]] [1] [([0], [0])] 1 [0] [0] 0 0
     (by decide) (by decide)⟩

/- ----------------------------- claim C8 ----------------------------- -/

/-- Claim C8: `build_maps` produces exactly the five named
configurations over feature dimension 4, in this order — reps 1 scale 1,
reps 2 scale 1, reps 1 scale 0.5, reps 1 with linear entanglement scale
1, reps 1 with linear entanglement scale 0.5 — and
`add_linear_entanglement` appends one CX gate from qubit `i` to qubit
`i+1` for every `i` in `[0, n-2]`, once, after the base encoding
circuit's gates. -/
theorem build_maps_catalog :
    build_maps.length = 5 ∧
    build_maps =
      [("ZF-reps1", QCircuit.mk 4 [QGate.zfLayer 4 1], 1),
       ("ZF-reps2", QCircuit.mk 4 [QGate.zfLayer 4 2], 1),
       ("ZF-alpha05", QCircuit.mk 4 [QGate.zfLayer 4 1], 1/2),
       ("ZF-LinEnt", QCircuit.mk 4
          [QGate.zfLayer 4 1, QGate.cx 0 1, QGate.cx 1 2, QGate.cx 2 3], 1),
       ("ZF-alpha05-LinEnt", QCircuit.mk 4
          [QGate.zfLayer 4 1, QGate.cx 0 1, QGate.cx 1 2, QGate.cx 2 3], 1/2)] ∧
    ∀ circ : QCircuit,
      (add_linear_entanglement circ).num_qubits = circ.num_qubits ∧
      (add_linear_entanglement circ).gates =
        circ.gates ++ (List.range (circ.num_qubits - 1)).map
          (fun i => QGate.cx i (i + 1)) :=
  ⟨rfl, by with_unfolding_all rfl, fun circ => ⟨rfl, rfl⟩⟩

/- ----------------------------- claim C9 ----------------------------- -/

/-- Claim C9: with the library routines fixed (same installed versions,
modelled as the same `LibFuns`), two runs of the pipeline with equal
seeds produce identical outputs: identical train/test split compositions
in both evaluators and identical selected hyperparameters. -/
theorem pipeline_deterministic (L : LibFuns) (X : Mat) (y : List Int)
    (s1 s2 : ℕ) (h : s1 = s2) :
    runPipeline L s1 X y = runPipeline L s2 X y ∧
    pipelineSplits L s1 X y = pipelineSplits L s2 X y ∧
    pipelineSelections L s1 X y = pipelineSelections L s2 X y := by
  subst h
  exact ⟨rfl, rfl, rfl⟩

/-- Witness for `pipeline_deterministic` at the script's seed
`SEED = 12345` and concrete library routines. -/
theorem pipeline_deterministic_witness :
    SEED = 12345 ∧
    (runPipeline libFunsW 12345 X2 y2 = runPipeline libFunsW 12345 X2 y2 ∧
     pipelineSplits libFunsW 12345 X2 y2 = pipelineSplits libFunsW 12345 X2 y2 ∧
     pipelineSelections libFunsW 12345 X2 y2 =
       pipelineSelections libFunsW 12345 X2 y2) :=
  ⟨rfl, pipeline_deterministic libFunsW X2 y2 12345 12345 rfl⟩

/- ----------------------------- claim C10 ----------------------------- -/

/-- Claim C10: the entry-point block references `X_raw` and `y_raw`,
which no module-level statement or builtin defines, and never looks up
`load_dataset`; `load_dataset`'s body references `ad_hoc_data`,
`TRAIN_SIZE` and `TEST_SIZE`, none of which are defined or imported; so
running the script as its entry point halts with a `NameError` on
`X_raw` (at the `df_c = eval_classical(X_raw, y_raw)` statement) before
any evaluator has run. -/
theorem main_undefined_names :
    runMain = RunOutcome.nameError "X_raw" [] ∧
    ¬ "X_raw" ∈ moduleDefinedNames ++ builtinNames ∧
    ¬ "y_raw" ∈ moduleDefinedNames ++ builtinNames ∧
    ¬ "load_dataset" ∈ (mainStmts.flatMap (fun st =>
        match st with
        | PyStmt.expr us => us
        | PyStmt.assign _ us => us)) ∧
    ¬ "ad_hoc_data" ∈ moduleDefinedNames ++ builtinNames ∧
    ¬ "TRAIN_SIZE" ∈ moduleDefinedNames ++ builtinNames ∧
    ¬ "TEST_SIZE" ∈ moduleDefinedNames ++ builtinNames ∧
    "ad_hoc_data" ∈ loadDatasetUses ∧
    "TRAIN_SIZE" ∈ loadDatasetUses ∧
    "TEST_SIZE" ∈ loadDatasetUses := by
  decide
